import Mathlib

set_option maxRecDepth 8000

/-!
Verification development for the `tor` controller and wire-codec subsystems of
the btcpayserver/lnd repository.

The Tor control-protocol client (`tor/controller.go`) is embedded directly from
its source: the connection's buffered input is modelled as the list of
CRLF-stripped lines the `textproto` reader would deliver, machine integers as
`Nat`/`Int`, byte strings as `List Nat`, and fallible operations as `Option` or
`Except`.  The lnwire codec is present in the repository only through its test
file, so its definitions are modelled from the specification text and marked as
such in their doc comments.
-/

/-- Errors surfaced by `Controller.readResponse` (tor/controller.go).
`eof` models the textproto reader failing for lack of buffered data,
`shortLine` the `len(line) < 4` check, `atoiErr` a status code that
`strconv.Atoi` rejects, `invalidLine` an unknown separator byte, and
`codeNotMatch` the package-level `errCodeNotMatch` ("unexpected code"). -/
inductive ReadErr where
  | eof
  | shortLine (line : String)
  | atoiErr (s : String)
  | invalidLine (line : String)
  | codeNotMatch
  deriving DecidableEq, Repr

/-- Value of a non-empty all-digit character list, mirroring the digit loop of
Go's `strconv.Atoi`. -/
def digitsVal (cs : List Char) : Option Nat :=
  if cs.isEmpty then none
  else if cs.all Char.isDigit then
    some (cs.foldl (fun a c => a * 10 + (c.toNat - 48)) 0)
  else none

/-- Embedding of Go's `strconv.Atoi`: an optional sign followed by at least one
decimal digit, rejecting values outside the 64-bit signed range. -/
def goAtoi (s : String) : Option Int :=
  match s.toList with
  | '+' :: rest =>
    match digitsVal rest with
    | some n => if n ≤ 9223372036854775807 then some (Int.ofNat n) else none
    | none => none
  | '-' :: rest =>
    match digitsVal rest with
    | some n => if n ≤ 9223372036854775808 then some (-(Int.ofNat n)) else none
    | none => none
  | cs =>
    match digitsVal cs with
    | some n => if n ≤ 9223372036854775807 then some (Int.ofNat n) else none
    | none => none

/-- Embedding of `textproto.Reader.ReadDotLines` on the buffered lines: consume
lines until a bare "." terminator, removing one leading dot from dot-escaped
lines; `none` models hitting the end of input before the terminator. -/
def readDotLines : List String → Option (List String × List String)
  | [] => none
  | l :: rest =>
    if l = "." then some ([], rest)
    else
      match readDotLines rest with
      | none => none
      | some (ds, r) =>
        let l' := if l.toList.head? = some '.' then String.mk (l.toList.drop 1) else l
        some (l' :: ds, r)

/-- Body of the read loop of `Controller.readResponse` (tor/controller.go
lines 300-377).  `expected` is the status code the caller expects, the list is
the buffered input lines, and the accumulator is the reply string built so
far.  Returns the status code, the reply text, and the error (if any) exactly
as the Go function does.  The `Nat` argument is recursion fuel: every
iteration of the Go loop consumes at least one buffered line, so fuel equal to
the number of buffered lines (as supplied by `readRespLoop`) makes the fuel
bound unreachable. -/
def readRespLoopF (expected : Int) : Nat → List String → String → Int × String × Option ReadErr
  | _, [], reply => (0, reply, some .eof)
  | 0, _ :: _, reply => (0, reply, some .eof)
  | fuel + 1, line :: rest, reply =>
    if line.length < 4 then (0, reply, some (.shortLine line))
    else
      match goAtoi (String.mk (line.toList.take 3)) with
      | none => (0, reply, some (.atoiErr (String.mk (line.toList.take 3))))
      | some code =>
        let restOfLine := String.mk (line.toList.drop 4)
        match line.toList[3]? with
        | some ' ' =>
          let reply := reply ++ restOfLine
          if code ≠ expected then (code, reply, some .codeNotMatch)
          else (code, reply, none)
        | some '-' =>
          let reply := reply ++ restOfLine
          if code ≠ expected then (code, reply, some .codeNotMatch)
          else readRespLoopF expected fuel rest (reply ++ "\n")
        | some '+' =>
          let reply := reply ++ restOfLine
          match readDotLines rest with
          | none => (code, reply, some .eof)
          | some (ds, rest') =>
            let reply := reply ++ String.intercalate "," ds
            if code ≠ expected then (code, reply, some .codeNotMatch)
            else readRespLoopF expected fuel rest' (reply ++ "\n")
        | _ => (code, reply, some (.invalidLine line))

/-- The read loop started with adequate fuel. -/
def readRespLoop (expected : Int) (lines : List String) (reply : String) :
    Int × String × Option ReadErr :=
  readRespLoopF expected lines.length lines reply

/-- Embedding of `Controller.readResponse`: run the read loop on the buffered
lines and, as the deferred `Discard(Buffered())` does, drop whatever input is
still buffered before the next read.  The second component is the buffer left
for the next call. -/
def readResponse (expected : Int) (lines : List String) :
    (Int × String × Option ReadErr) × List String :=
  (readRespLoop expected lines "", [])

/-!
Structured Tor control replies.  `TorLine` describes one continuation line of
a reply: a MidReplyLine, or a DataReplyLine together with its dot-terminated
block.  The end line is kept separately.  `renderReply` produces the wire
lines such a reply occupies, exactly as `readResponse` would read them.
-/

/-- One continuation line of a structured reply. -/
inductive TorLine where
  | mid (code : Nat) (text : String)
  | dat (code : Nat) (text : String) (block : List String)
  deriving DecidableEq, Repr

/-- Status code of a structured line. -/
def lineCode : TorLine → Nat
  | .mid c _ => c
  | .dat c _ _ => c

/-- Text a line contributes to the accumulated reply: a data line contributes
its header text followed by the block values comma-joined. -/
def lineText : TorLine → String
  | .mid _ t => t
  | .dat _ t block => t ++ String.intercalate "," block

/-- Decimal rendering of a status code (three characters for codes
100-999). -/
def code3 (c : Nat) : String := toString c

/-- Wire lines of one structured line. -/
def renderLine : TorLine → List String
  | .mid c t => [code3 c ++ "-" ++ t]
  | .dat c t block => (code3 c ++ "+" ++ t) :: (block ++ ["."])

/-- Wire lines of a whole reply: continuation lines then the end line. -/
def renderReply (body : List TorLine) (ec : Nat) (et : String) : List String :=
  (body.map renderLine).flatten ++ [code3 ec ++ " " ++ et]

/-- A data block is plain when no line starts with a dot (such lines would
have been dot-escaped on the wire). -/
def blockOK (block : List String) : Bool :=
  block.all (fun l => l.toList.head? != some '.')

/-- Well-formedness of a structured line: a three-digit status code, and a
plain data block. -/
def lineWF : TorLine → Bool
  | .mid c _ => decide (100 ≤ c) && decide (c ≤ 999)
  | .dat c _ b => decide (100 ≤ c) && decide (c ≤ 999) && blockOK b

/-- Claim-side account of the code, accumulated text and error that
`readResponse` produces on a structured reply: lines are joined with a
newline, and the walk stops at the first line whose code differs from the
expected one, returning that code and `errCodeNotMatch`. -/
def loopSpec (expected : Nat) : List TorLine → Nat → String → String → Int × String × Option ReadErr
  | [], ec, et, acc =>
    if ec ≠ expected then ((ec : Int), acc ++ et, some .codeNotMatch)
    else ((ec : Int), acc ++ et, none)
  | l :: ls, ec, et, acc =>
    if lineCode l ≠ expected then
      ((lineCode l : Int), acc ++ lineText l, some .codeNotMatch)
    else loopSpec expected ls ec et (acc ++ lineText l ++ "\n")

/-- Code of the first line (continuation or end) whose status code differs
from the expected one. -/
def firstBadCode (expected : Nat) (body : List TorLine) (ec : Nat) : Nat :=
  match (body.map lineCode).find? (fun c => c != expected) with
  | some c => c
  | none => ec

/-!
PROTOCOLINFO replies, authentication-method selection, and version gating.
-/

/-- Equality of `Except` results is decidable when both components are. -/
instance {ε α : Type} [DecidableEq ε] [DecidableEq α] : DecidableEq (Except ε α) := by
  intro a b
  cases a <;> cases b <;>
    first
      | (apply isFalse; intro h; exact Except.noConfusion h)
      | · rename_i x y
          by_cases h : x = y
          · exact isTrue (by rw [h])
          · exact isFalse (by intro hc; cases hc; exact h rfl)

/-- A parsed PROTOCOLINFO reply: the key/value pairs `parseTorReply` produces.
The Go map is modelled as an association list with `List.lookup` access. -/
def ProtocolInfo := List (String × String)

/-- Embedding of Go's `strings.Contains`: `pat` occurs as a contiguous
substring of `s`. -/
def strContains (s pat : String) : Bool :=
  (s.toList.tails).any (fun suf => pat.toList.isPrefixOf suf)

/-- Embedding of `protocolInfo.supportsAuthMethod` (tor/controller.go lines
669-675): look up the METHODS value and test substring containment. -/
def supportsAuthMethod (i : ProtocolInfo) (method : String) : Bool :=
  match List.lookup "METHODS" i with
  | none => false
  | some methods => strContains methods method

/-- The three authentication methods `Controller.authenticate` can select. -/
inductive AuthMethod where
  | hashedPassword
  | safeCookie
  | null
  deriving DecidableEq, Repr

/-- Failures of the authentication-method dispatch. -/
inductive AuthSelectErr where
  | methodNotSupported (m : String)
  | noSupportedAuth
  deriving DecidableEq, Repr

/-- Embedding of the method-selection switch of `Controller.authenticate`
(tor/controller.go lines 449-473): with a configured (non-empty) password the
HASHEDPASSWORD method is required and its absence is an error; without a
password, SAFECOOKIE is preferred, then NULL, and otherwise the call fails
with the no-supported-authentication error. -/
def authSelect (password : String) (info : ProtocolInfo) : Except AuthSelectErr AuthMethod :=
  if password ≠ "" then
    if supportsAuthMethod info "HASHEDPASSWORD" then Except.ok AuthMethod.hashedPassword
    else Except.error (AuthSelectErr.methodNotSupported "HASHEDPASSWORD")
  else if supportsAuthMethod info "SAFECOOKIE" then Except.ok AuthMethod.safeCookie
  else if supportsAuthMethod info "NULL" then Except.ok AuthMethod.null
  else Except.error AuthSelectErr.noSupportedAuth

/-- Minimum supported Tor version (`MinTorVersion`, tor/controller.go). -/
def MinTorVersion : String := "0.3.3.6"

/-- Embedding of Go's `strings.Split` for a single-character separator:
splitting never yields an empty list, and splitting the empty string yields
one empty group. -/
def splitOnChar (sep : Char) : List Char → List (List Char)
  | [] => [[]]
  | c :: rest =>
    match splitOnChar sep rest with
    | [] => [[]]
    | g :: gs => if c = sep then [] :: g :: gs else (c :: g) :: gs

/-- Strict lexicographic comparison of character lists by code point, which
for valid UTF-8 agrees with Go's byte-wise `<` on strings. -/
def listLt : List Char → List Char → Bool
  | [], [] => false
  | [], _ :: _ => true
  | _ :: _, [] => false
  | a :: as, b :: bs =>
    if a.toNat < b.toNat then true
    else if b.toNat < a.toNat then false
    else listLt as bs

/-- Go's `<` on strings (byte-wise lexicographic). -/
def strLtGo (a b : String) : Bool := listLt a.toList b.toList

/-- Failures of the version check. -/
inductive VersionErr where
  | badFormat
  | atoiErr
  | belowMinimum
  deriving DecidableEq, Repr

/-- Embedding of `supportsV3` (tor/controller.go lines 624-655): split on
dots and require exactly four parts (matched here as a four-element list);
strip an optional "-"-suffix from the build part; require every part to parse
with `strconv.Atoi`; finally compare the original, unmodified version string
lexicographically against `MinTorVersion`. -/
def supportsV3 (version : String) : Except VersionErr Unit :=
  match splitOnChar '.' version.toList with
  | [p1, p2, p3, p4] =>
    let p4' := (splitOnChar '-' p4).headD []
    if (goAtoi (String.mk p1)).isSome && (goAtoi (String.mk p2)).isSome &&
        (goAtoi (String.mk p3)).isSome && (goAtoi (String.mk p4')).isSome then
      if strLtGo version MinTorVersion then Except.error VersionErr.belowMinimum
      else Except.ok ()
    else Except.error VersionErr.atoiErr
  | _ => Except.error VersionErr.badFormat

/-- Well-formedness of a version string in the words of the specification:
exactly four dot-separated parts, each parsing as an integer once an optional
"-"-suffix is stripped from the last part. -/
def versionWellFormed (version : String) : Bool :=
  match splitOnChar '.' version.toList with
  | [p1, p2, p3, p4] =>
    (goAtoi (String.mk p1)).isSome && (goAtoi (String.mk p2)).isSome &&
      (goAtoi (String.mk p3)).isSome &&
      (goAtoi (String.mk ((splitOnChar '-' p4).headD []))).isSome
  | _ => false

/-!
Controller lifecycle.  The Go `Controller` carries two `int32` flags driven
only by `CompareAndSwapInt32(_, 0, 1)` and equality tests against 0 and 1, so
they are modelled as `Bool`; the `textproto` connection is modelled by
whether one is present.  The outcome of the external operations a lifecycle
call performs (dialing, authenticating, the DEL_ONION command, closing) is
supplied by an environment record.
-/

/-- Abstract state of a `Controller` (tor/controller.go). -/
structure ControllerState where
  started : Bool
  stopped : Bool
  connOpen : Bool
  activeServiceID : String
  deriving DecidableEq, Repr

/-- Outcomes of the external operations of one lifecycle call. -/
structure TorEnv where
  dialOK : Bool
  authOK : Bool
  delOnionOK : Bool
  closeOK : Bool
  deriving DecidableEq, Repr

/-- Errors of the lifecycle operations.  `nilConn` models the nil-pointer
dereference Go would hit when using an absent connection; `notStarted` and
`stopped` are `errTCNotStarted` and `errTCStopped`. -/
inductive TorErr where
  | dialFailed
  | authFailed
  | delOnionFailed
  | closeFailed
  | nilConn
  | notStarted
  | stopped
  deriving DecidableEq, Repr

/-- The state `NewController` returns: no flag set, no connection, no active
onion service. -/
def newController : ControllerState :=
  { started := false, stopped := false, connOpen := false, activeServiceID := "" }

/-- Modelled from the spec: `DelOnion` is not part of the source window (only
its caller `Stop` is).  Per the specification's `stop()` contract — "if there
is an active onion service, issue DEL_ONION" — it does nothing for an empty
service ID, and otherwise issues the DEL_ONION command on the connection,
whose acceptance is given by the environment. -/
def DelOnion (env : TorEnv) (c : ControllerState) (serviceID : String) : Except TorErr Unit :=
  if serviceID = "" then Except.ok ()
  else if c.connOpen = false then Except.error TorErr.nilConn
  else if env.delOnionOK then Except.ok () else Except.error TorErr.delOnionFailed

/-- Embedding of `Controller.Start` (tor/controller.go lines 155-170):
compare-and-swap the started flag (no-op returning ok when already set), dial
the control address, then authenticate. -/
def Controller.Start (env : TorEnv) (c : ControllerState) :
    Except TorErr Unit × ControllerState :=
  if c.started then (Except.ok (), c)
  else
    let c := { c with started := true }
    if env.dialOK = false then (Except.error TorErr.dialFailed, c)
    else
      let c := { c with connOpen := true }
      if env.authOK then (Except.ok (), c) else (Except.error TorErr.authFailed, c)

/-- Embedding of `Controller.Stop` (tor/controller.go lines 173-190):
compare-and-swap the stopped flag (no-op returning ok when already set), call
`DelOnion` with the active service ID and return its error on failure
without any further teardown, reset the service ID, then close the
connection. -/
def Controller.Stop (env : TorEnv) (c : ControllerState) :
    Except TorErr Unit × ControllerState :=
  if c.stopped then (Except.ok (), c)
  else
    let c := { c with stopped := true }
    match DelOnion env c c.activeServiceID with
    | Except.error e => (Except.error e, c)
    | Except.ok () =>
      let c := { c with activeServiceID := "" }
      if c.connOpen = false then (Except.error TorErr.nilConn, c)
      else
        let c := { c with connOpen := false }
        if env.closeOK then (Except.ok (), c)
        else (Except.error TorErr.closeFailed, c)

/-- Embedding of `Controller.Reconnect` (tor/controller.go lines 202-244):
require started and not stopped, close any old connection ignoring errors,
dial and authenticate anew, and only then reset the active service ID. -/
def Controller.Reconnect (env : TorEnv) (c : ControllerState) :
    Except TorErr Unit × ControllerState :=
  if c.started = false then (Except.error TorErr.notStarted, c)
  else if c.stopped then (Except.error TorErr.stopped, c)
  else
    let c := { c with connOpen := false }
    if env.dialOK = false then (Except.error TorErr.dialFailed, c)
    else
      let c := { c with connOpen := true }
      if env.authOK = false then (Except.error TorErr.authFailed, c)
      else (Except.ok (), { c with activeServiceID := "" })

/-!
SHA-256 and HMAC-SHA256 over byte lists (bytes are `Nat` below 256, 32-bit
words are `Nat` reduced modulo 2^32), as used by `computeHMAC256`
(tor/controller.go) via Go's `crypto/sha256` and `crypto/hmac`.
-/

/-- Reduce to a 32-bit word. -/
def w32 (n : Nat) : Nat := n % 4294967296

/-- Right rotation of a 32-bit word. -/
def rotr32 (n x : Nat) : Nat := w32 (x / 2 ^ n + x % 2 ^ n * 2 ^ (32 - n))

/-- Logical right shift of a 32-bit word. -/
def shr32 (n x : Nat) : Nat := x / 2 ^ n

/-- Bitwise complement of a 32-bit word. -/
def not32 (x : Nat) : Nat := 4294967295 - x

def bigSigma0 (x : Nat) : Nat := rotr32 2 x ^^^ rotr32 13 x ^^^ rotr32 22 x

def bigSigma1 (x : Nat) : Nat := rotr32 6 x ^^^ rotr32 11 x ^^^ rotr32 25 x

def smallSigma0 (x : Nat) : Nat := rotr32 7 x ^^^ rotr32 18 x ^^^ shr32 3 x

def smallSigma1 (x : Nat) : Nat := rotr32 17 x ^^^ rotr32 19 x ^^^ shr32 10 x

def chFn (x y z : Nat) : Nat := (x &&& y) ^^^ (not32 x &&& z)

def majFn (x y z : Nat) : Nat := (x &&& y) ^^^ (x &&& z) ^^^ (y &&& z)

/-- The 64 SHA-256 round constants. -/
def sha256K : List Nat :=
  [1116352408, 1899447441, 3049323471, 3921009573, 961987163,
   1508970993, 2453635748, 2870763221, 3624381080, 310598401,
   607225278, 1426881987, 1925078388, 2162078206, 2614888103,
   3248222580, 3835390401, 4022224774, 264347078, 604807628,
   770255983, 1249150122, 1555081692, 1996064986, 2554220882,
   2821834349, 2952996808, 3210313671, 3336571891, 3584528711,
   113926993, 338241895, 666307205, 773529912, 1294757372,
   1396182291, 1695183700, 1986661051, 2177026350, 2456956037,
   2730485921, 2820302411, 3259730800, 3345764771, 3516065817,
   3600352804, 4094571909, 275423344, 430227734, 506948616,
   659060556, 883997877, 958139571, 1322822218, 1537002063,
   1747873779, 1955562222, 2024104815, 2227730452, 2361852424,
   2428436474, 2756734187, 3204031479, 3329325298]

/-- The SHA-256 initial hash state. -/
def sha256InitH : List Nat :=
  [1779033703, 3144134277, 1013904242, 2773480762,
   1359893119, 2600822924, 528734635, 1541459225]

/-- Big-endian bytes of a 32-bit word. -/
def u32be (n : Nat) : List Nat :=
  [n / 16777216 % 256, n / 65536 % 256, n / 256 % 256, n % 256]

/-- Big-endian bytes of a 64-bit word. -/
def u64be (n : Nat) : List Nat :=
  [n / 72057594037927936 % 256, n / 281474976710656 % 256,
   n / 1099511627776 % 256, n / 4294967296 % 256,
   n / 16777216 % 256, n / 65536 % 256, n / 256 % 256, n % 256]

/-- SHA-256 padding: a 0x80 byte, zeros to 56 mod 64, and the bit length. -/
def sha256Pad (msg : List Nat) : List Nat :=
  let L := msg.length
  let k := (119 - L % 64) % 64
  msg ++ [0x80] ++ List.replicate k 0 ++ u64be (8 * L)

/-- Big-endian 32-bit words of a byte list. -/
def bytesToWords : List Nat → List Nat
  | b0 :: b1 :: b2 :: b3 :: rest =>
    (b0 * 16777216 + b1 * 65536 + b2 * 256 + b3) :: bytesToWords rest
  | _ => []

/-- Split into 64-byte chunks (the fuel, number of bytes, bounds the number
of chunks). -/
def chunks64F : Nat → List Nat → List (List Nat)
  | _, [] => []
  | 0, _ :: _ => []
  | fuel + 1, l => l.take 64 :: chunks64F fuel (l.drop 64)

def chunks64 (l : List Nat) : List (List Nat) := chunks64F l.length l

/-- Extend a message schedule by one word. -/
def extendW (w : List Nat) : List Nat :=
  let i := w.length
  w ++ [w32 (smallSigma1 (w.getD (i - 2) 0) + w.getD (i - 7) 0 +
    smallSigma0 (w.getD (i - 15) 0) + w.getD (i - 16) 0)]

/-- The 64-word message schedule of one block. -/
def schedule (w16 : List Nat) : List Nat :=
  (List.range 48).foldl (fun w _ => extendW w) w16

/-- One SHA-256 round: fold the round constant and schedule word `p` into
the 8-word working state. -/
def roundStep (st : List Nat) (p : Nat × Nat) : List Nat :=
  match st with
  | [a, b, c, d, e, f, g, hh] =>
    let t1 := w32 (hh + bigSigma1 e + chFn e f g + p.1 + p.2)
    let t2 := w32 (bigSigma0 a + majFn a b c)
    [w32 (t1 + t2), a, b, c, w32 (d + t1), e, f, g]
  | st => st

/-- One SHA-256 compression of a 64-byte block into the 8-word state. -/
def sha256Compress (h : List Nat) (block : List Nat) : List Nat :=
  let w := schedule (bytesToWords block)
  match h, (sha256K.zip w).foldl roundStep h with
  | [h0, h1, h2, h3, h4, h5, h6, h7], [a, b, c, d, e, f, g, hh] =>
    [w32 (h0 + a), w32 (h1 + b), w32 (h2 + c), w32 (h3 + d),
     w32 (h4 + e), w32 (h5 + f), w32 (h6 + g), w32 (h7 + hh)]
  | _, _ => h

/-- SHA-256 of a byte list. -/
def sha256 (msg : List Nat) : List Nat :=
  (((chunks64 (sha256Pad msg)).foldl sha256Compress sha256InitH).map u32be).flatten

/-- Embedding of `computeHMAC256` (tor/controller.go lines 613-617):
HMAC-SHA256 with a 64-byte block size. -/
def computeHMAC256 (key message : List Nat) : List Nat :=
  let key := if 64 < key.length then sha256 key else key
  let key := key ++ List.replicate (64 - key.length) 0
  sha256 ((key.map (fun b => b ^^^ 0x5c)) ++
    sha256 ((key.map (fun b => b ^^^ 0x36)) ++ message))

/-- ASCII bytes of a string. -/
def strBytes (s : String) : List Nat := s.toList.map Char.toNat

/-- Lowercase hex digits. -/
def hexChars : List Char := "0123456789abcdef".toList

/-- Lowercase hex encoding of a byte list, as Go's `%x` verb produces. -/
def hexEncode (bs : List Nat) : String :=
  String.mk ((bs.map (fun b => [hexChars.getD (b / 16) '0',
    hexChars.getD (b % 16) '0'])).flatten)

/-- Value of one hex digit, upper or lower case. -/
def hexDigitVal (c : Char) : Option Nat :=
  if '0' ≤ c ∧ c ≤ '9' then some (c.toNat - 48)
  else if 'a' ≤ c ∧ c ≤ 'f' then some (c.toNat - 87)
  else if 'A' ≤ c ∧ c ≤ 'F' then some (c.toNat - 55)
  else none

/-- Embedding of Go's `hex.DecodeString` on a character list: pairs of hex
digits; odd length or a non-hex character is an error. -/
def hexDecodeL : List Char → Option (List Nat)
  | [] => some []
  | [_] => none
  | c1 :: c2 :: rest =>
    match hexDigitVal c1, hexDigitVal c2, hexDecodeL rest with
    | some hi, some lo, some bs => some ((16 * hi + lo) :: bs)
    | _, _, _ => none

def hexDecode (s : String) : Option (List Nat) := hexDecodeL s.toList

/-- Embedding of `strings.Trim(path, "\"")`: remove all leading and trailing
double quotes. -/
def trimQuotes (s : String) : String :=
  String.mk (((s.toList.dropWhile (· = '"')).reverse.dropWhile (· = '"')).reverse)

/-- Key of the server-to-controller HMAC (`serverKey`, tor/controller.go). -/
def serverKey : List Nat :=
  strBytes "Tor safe cookie authentication server-to-controller hash"

/-- Key of the controller-to-server HMAC (`controllerKey`,
tor/controller.go). -/
def controllerKey : List Nat :=
  strBytes "Tor safe cookie authentication controller-to-server hash"

/-- External inputs of the SAFECOOKIE handshake: the result of reading a file
(`os.ReadFile`), the 32 random bytes `crypto/rand` produced for the client
nonce, and the parsed key/value pairs of the server's AUTHCHALLENGE reply. -/
structure SafeCookieEnv where
  readFile : String → Option (List Nat)
  clientNonce : List Nat
  challengeReply : List (String × String)

/-- Failures of the SAFECOOKIE handshake, in the order the Go code checks
them. -/
inductive SCErr where
  | cookieFileMissing
  | cookieReadFailed
  | badCookieLen
  | noServerHash
  | serverHashDecode
  | badServerHashLen
  | noServerNonce
  | serverNonceDecode
  | badServerNonceLen
  | serverHashMismatch
  | badClientHashLen
  deriving DecidableEq, Repr

/-- Embedding of `Controller.getAuthCookie` (tor/controller.go lines
590-610): resolve COOKIEFILE from the PROTOCOLINFO reply, trim quotes, read
the file, and require exactly 32 bytes (`cookieLen`). -/
def getAuthCookie (env : SafeCookieEnv) (info : ProtocolInfo) :
    Except SCErr (List Nat) :=
  match List.lookup "COOKIEFILE" info with
  | none => Except.error SCErr.cookieFileMissing
  | some path =>
    match env.readFile (trimQuotes path) with
    | none => Except.error SCErr.cookieReadFailed
    | some cookie =>
      if cookie.length ≠ 32 then Except.error SCErr.badCookieLen
      else Except.ok cookie

/-- Embedding of `Controller.authenticateViaSafeCookie` (tor/controller.go
lines 493-586).  The AUTHCHALLENGE command carries the hex client nonce; its
parsed reply is `env.challengeReply`.  On success the returned string is the
final AUTHENTICATE command sent to the server. -/
def authenticateViaSafeCookie (env : SafeCookieEnv) (info : ProtocolInfo) :
    Except SCErr String :=
  match getAuthCookie env info with
  | Except.error e => Except.error e
  | Except.ok cookie =>
    match List.lookup "SERVERHASH" env.challengeReply with
    | none => Except.error SCErr.noServerHash
    | some serverHash =>
      match hexDecode serverHash with
      | none => Except.error SCErr.serverHashDecode
      | some decodedServerHash =>
        if decodedServerHash.length ≠ 32 then Except.error SCErr.badServerHashLen
        else
          match List.lookup "SERVERNONCE" env.challengeReply with
          | none => Except.error SCErr.noServerNonce
          | some serverNonce =>
            match hexDecode serverNonce with
            | none => Except.error SCErr.serverNonceDecode
            | some decodedServerNonce =>
              if decodedServerNonce.length ≠ 32 then
                Except.error SCErr.badServerNonceLen
              else
                let hmacMessage := cookie ++ env.clientNonce ++ decodedServerNonce
                if computeHMAC256 serverKey hmacMessage ≠ decodedServerHash then
                  Except.error SCErr.serverHashMismatch
                else
                  let clientHash := computeHMAC256 controllerKey hmacMessage
                  if clientHash.length ≠ 32 then Except.error SCErr.badClientHashLen
                  else Except.ok ("AUTHENTICATE " ++ hexEncode clientHash)

/-!
Address-list codec (lnwire).  The lnwire implementation is present in the
repository only through its tests (`TestDecodeUnknownAddressType`,
`randOpaqueAddr` in lnwire/lnwire_test.go), so the definitions below are
modelled from the specification's "Address-list encoding" contract.
-/

/-- Big-endian bytes of a 16-bit word. -/
def u16be (n : Nat) : List Nat := [n / 256 % 256, n % 256]

/-- Value of two big-endian bytes. -/
def u16beVal (bs : List Nat) : Nat := 256 * bs.getD 0 0 + bs.getD 1 0

/-- The Tor base32 alphabet (`tor.Base32Encoding`). -/
def base32Alphabet : List Char := "abcdefghijklmnopqrstuvwxyz234567".toList

/-- Big-endian bits of one byte. -/
def byteBits (b : Nat) : List Nat :=
  [b / 128 % 2, b / 64 % 2, b / 32 % 2, b / 16 % 2, b / 8 % 2, b / 4 % 2,
   b / 2 % 2, b % 2]

/-- Five-bit groups of a bit list (exact multiples only; onion service IDs
occupy 80 or 280 bits, both multiples of five). -/
def group5 : List Nat → List Nat
  | b1 :: b2 :: b3 :: b4 :: b5 :: rest =>
    (16 * b1 + 8 * b2 + 4 * b3 + 2 * b4 + b5) :: group5 rest
  | _ => []

/-- Eight-bit groups of a bit list. -/
def group8 : List Nat → List Nat
  | b1 :: b2 :: b3 :: b4 :: b5 :: b6 :: b7 :: b8 :: rest =>
    (128 * b1 + 64 * b2 + 32 * b3 + 16 * b4 + 8 * b5 + 4 * b6 + 2 * b7 + b8) ::
      group8 rest
  | _ => []

/-- Base32 encoding of a byte list with the Tor alphabet. -/
def base32Encode (bs : List Nat) : String :=
  String.mk ((group5 ((bs.map byteBits).flatten)).map
    (fun v => base32Alphabet.getD v 'a'))

/-- Bits of one base32 character, if valid. -/
def b32Val (c : Char) : Option Nat :=
  let i := base32Alphabet.indexOf c
  if i < 32 then some i else none

/-- Five bits of a 0-31 value. -/
def val5Bits (v : Nat) : List Nat :=
  [v / 16 % 2, v / 8 % 2, v / 4 % 2, v / 2 % 2, v % 2]

/-- Base32 decoding with the Tor alphabet. -/
def base32Decode (cs : List Char) : Option (List Nat) :=
  let vals := cs.map b32Val
  if vals.all Option.isSome then
    some (group8 (((vals.map (fun v => v.getD 0)).map val5Bits).flatten))
  else none

/-- Modelled from the spec: the five kinds of addresses of the lnwire
address list — IPv4+port, IPv6+port, Tor v2 onion (10-byte service ID),
Tor v3 onion (35-byte service ID), and an unknown-discriminator address
whose payload (discriminator byte included) is kept verbatim
(`OpaqueAddrs`). -/
inductive NetAddr where
  | tcp4 (ip : List Nat) (port : Nat)
  | tcp6 (ip : List Nat) (port : Nat)
  | onionV2 (service : String) (port : Nat)
  | onionV3 (service : String) (port : Nat)
  | unknownA (payload : List Nat)
  deriving DecidableEq, Repr

/-- Characters of an onion service name without its ".onion" suffix. -/
def stripOnionSuffix (s : String) : List Char :=
  s.toList.take (s.toList.length - 6)

/-- Modelled from the spec: textual form of an address.  IPv4 is dotted
quad with port, onion addresses are the service name with port, and an
unknown address renders as the hex of its raw payload
(`OpaqueAddrs.String`). -/
def NetAddr.render : NetAddr → String
  | .tcp4 ip port =>
    String.intercalate "." (ip.map (fun b => toString b)) ++ ":" ++ toString port
  | .tcp6 ip port =>
    String.intercalate ":" (ip.map (fun b => toString b)) ++ ":" ++ toString port
  | .onionV2 service port => service ++ ":" ++ toString port
  | .onionV3 service port => service ++ ":" ++ toString port
  | .unknownA payload => hexEncode payload

/-- Modelled from the spec: serialize one address as a one-byte
discriminator and its payload — `1` IPv4 (4+2 bytes), `2` IPv6 (16+2),
`3` Tor v2 (10-byte base32-decoded service ID + 2), `4` Tor v3 (35+2) —
while an unknown address re-emits its raw payload unchanged. -/
def writeAddr : NetAddr → Option (List Nat)
  | .tcp4 ip port =>
    if ip.length = 4 ∧ port < 65536 then some (1 :: (ip ++ u16be port)) else none
  | .tcp6 ip port =>
    if ip.length = 16 ∧ port < 65536 then some (2 :: (ip ++ u16be port)) else none
  | .onionV2 service port =>
    match base32Decode (stripOnionSuffix service) with
    | some sid =>
      if sid.length = 10 ∧ port < 65536 then some (3 :: (sid ++ u16be port))
      else none
    | none => none
  | .onionV3 service port =>
    match base32Decode (stripOnionSuffix service) with
    | some sid =>
      if sid.length = 35 ∧ port < 65536 then some (4 :: (sid ++ u16be port))
      else none
    | none => none
  | .unknownA payload => some payload

/-- Modelled from the spec: parse the concatenated addresses of an address
block.  A known discriminator consumes its fixed-size payload; any other
discriminator makes the rest of the block one unknown address, discriminator
byte included.  The fuel (number of bytes) bounds the number of addresses. -/
def readAddrsF : Nat → List Nat → Option (List NetAddr)
  | _, [] => some []
  | 0, _ :: _ => none
  | fuel + 1, d :: rest =>
    if d = 1 then
      if 6 ≤ rest.length then
        match readAddrsF fuel (rest.drop 6) with
        | some as =>
          some (NetAddr.tcp4 (rest.take 4) (u16beVal ((rest.drop 4).take 2)) :: as)
        | none => none
      else none
    else if d = 2 then
      if 18 ≤ rest.length then
        match readAddrsF fuel (rest.drop 18) with
        | some as =>
          some (NetAddr.tcp6 (rest.take 16) (u16beVal ((rest.drop 16).take 2)) :: as)
        | none => none
      else none
    else if d = 3 then
      if 12 ≤ rest.length then
        match readAddrsF fuel (rest.drop 12) with
        | some as =>
          some (NetAddr.onionV2 (base32Encode (rest.take 10) ++ ".onion")
            (u16beVal ((rest.drop 10).take 2)) :: as)
        | none => none
      else none
    else if d = 4 then
      if 37 ≤ rest.length then
        match readAddrsF fuel (rest.drop 37) with
        | some as =>
          some (NetAddr.onionV3 (base32Encode (rest.take 35) ++ ".onion")
            (u16beVal ((rest.drop 35).take 2)) :: as)
        | none => none
      else none
    else some [NetAddr.unknownA (d :: rest)]

/-- An address block parsed with adequate fuel. -/
def readAddrList (bs : List Nat) : Option (List NetAddr) := readAddrsF bs.length bs

/-- Modelled from the spec: `WriteNetAddrs` — serialize each address and
prepend the two-byte big-endian total length of the concatenation. -/
def writeNetAddrs (addrs : List NetAddr) : Option (List Nat) :=
  match addrs with
  | [] => some (u16be 0)
  | a :: rest =>
    match writeAddr a, writeNetAddrs rest with
    | some bs, some tailBytes =>
      let body := bs ++ tailBytes.drop 2
      let total := u16beVal (tailBytes.take 2) + bs.length
      if total < 65536 then some (u16be total ++ body) else none
    | _, _ => none

/-- Modelled from the spec: `ReadElement` on an address list — read the
two-byte length prefix and parse exactly that many bytes of addresses. -/
def readNetAddrs : List Nat → Option (List NetAddr)
  | l1 :: l2 :: rest =>
    let n := 256 * l1 + l2
    if n ≤ rest.length then readAddrList (rest.take n) else none
  | _ => none

/-!
Wire-message codec (lnwire).  The implementation is outside the source
window (only lnwire/lnwire_test.go is present), so the codec below is
modelled from the specification: a message is a 16-bit type tag, a
schema-described tuple of typed primitives, and a TLV trailer whose records
(unknown extra data and custom records alike) are kept and re-emitted; the
body must not exceed `MaxMsgBody`.
-/

/-- Maximum size of a message body, excluding the two type bytes. -/
def MaxMsgBody : Nat := 65533

/-- First user-defined message type. -/
def CustomTypeStart : Nat := 32768

/-- Smallest TLV type a custom record may carry. -/
def MinCustomRecordsTlvType : Nat := 65536

/-- Errors of the wire codec. -/
inductive WireErr where
  | bodyTooLarge
  | unknownMessageType
  | shortRead
  | malformedTLV
  deriving DecidableEq, Repr

/-- Modelled from the spec: canonical BigSize encoding of a variable-length
integer (one byte below 0xfd, otherwise a marker byte and a 2-, 4- or 8-byte
big-endian value). -/
def bigSizeEnc (n : Nat) : List Nat :=
  if n < 253 then [n]
  else if n ≤ 65535 then 253 :: u16be n
  else if n ≤ 4294967295 then 254 :: u32be n
  else 255 :: u64be n

/-- Modelled from the spec: BigSize decoding; returns the value and the
remaining bytes. -/
def bigSizeDec : List Nat → Option (Nat × List Nat)
  | [] => none
  | b :: rest =>
    if b < 253 then some (b, rest)
    else if b = 253 then
      match rest with
      | b1 :: b2 :: r => some (256 * b1 + b2, r)
      | _ => none
    else if b = 254 then
      match rest with
      | b1 :: b2 :: b3 :: b4 :: r =>
        some (16777216 * b1 + 65536 * b2 + 256 * b3 + b4, r)
      | _ => none
    else
      match rest with
      | b1 :: b2 :: b3 :: b4 :: b5 :: b6 :: b7 :: b8 :: r =>
        some (72057594037927936 * b1 + 281474976710656 * b2 +
          1099511627776 * b3 + 4294967296 * b4 + 16777216 * b5 + 65536 * b6 +
          256 * b7 + b8, r)
      | _ => none

/-- Modelled from the spec: the primitive kinds a message body is built
from — fixed-width big-endian integers, 32-byte hashes/channel IDs, 33-byte
compressed public keys, 64-byte signatures, length-prefixed byte strings, and
feature vectors (2-byte bit length then ceil(bits/8) bytes). -/
inductive FieldKind where
  | u8
  | u16
  | u32
  | u64
  | bytes32
  | bytes33
  | bytes64
  | varBytes
  | featureVec
  deriving DecidableEq, Repr

/-- A primitive field value. -/
inductive FieldVal where
  | u8V (n : Nat)
  | u16V (n : Nat)
  | u32V (n : Nat)
  | u64V (n : Nat)
  | bytes32V (bs : List Nat)
  | bytes33V (bs : List Nat)
  | bytes64V (bs : List Nat)
  | varBytesV (bs : List Nat)
  | featureVecV (bitLen : Nat) (bs : List Nat)
  deriving DecidableEq, Repr

/-- A value inhabits a field kind when its numbers fit the width and its
byte strings have the kind's length. -/
def fieldWF : FieldKind → FieldVal → Bool
  | .u8, .u8V n => decide (n < 256)
  | .u16, .u16V n => decide (n < 65536)
  | .u32, .u32V n => decide (n < 4294967296)
  | .u64, .u64V n => decide (n < 18446744073709551616)
  | .bytes32, .bytes32V bs => decide (bs.length = 32)
  | .bytes33, .bytes33V bs => decide (bs.length = 33)
  | .bytes64, .bytes64V bs => decide (bs.length = 64)
  | .varBytes, .varBytesV bs => decide (bs.length < 65536)
  | .featureVec, .featureVecV bitLen bs =>
    decide (bitLen < 65536) && decide (bs.length = (bitLen + 7) / 8)
  | _, _ => false

/-- Modelled from the spec: serialization of one field. -/
def encodeField : FieldVal → List Nat
  | .u8V n => [n]
  | .u16V n => u16be n
  | .u32V n => u32be n
  | .u64V n => u64be n
  | .bytes32V bs => bs
  | .bytes33V bs => bs
  | .bytes64V bs => bs
  | .varBytesV bs => u16be bs.length ++ bs
  | .featureVecV bitLen bs => u16be bitLen ++ bs

/-- Modelled from the spec: deserialization of one field of a given kind;
returns the value and the remaining bytes. -/
def decodeField : FieldKind → List Nat → Option (FieldVal × List Nat)
  | .u8, b :: r => some (.u8V b, r)
  | .u8, _ => none
  | .u16, b1 :: b2 :: r => some (.u16V (256 * b1 + b2), r)
  | .u16, _ => none
  | .u32, b1 :: b2 :: b3 :: b4 :: r =>
    some (.u32V (16777216 * b1 + 65536 * b2 + 256 * b3 + b4), r)
  | .u32, _ => none
  | .u64, b1 :: b2 :: b3 :: b4 :: b5 :: b6 :: b7 :: b8 :: r =>
    some (.u64V (72057594037927936 * b1 + 281474976710656 * b2 +
      1099511627776 * b3 + 4294967296 * b4 + 16777216 * b5 + 65536 * b6 +
      256 * b7 + b8), r)
  | .u64, _ => none
  | .bytes32, bs =>
    if 32 ≤ bs.length then some (.bytes32V (bs.take 32), bs.drop 32) else none
  | .bytes33, bs =>
    if 33 ≤ bs.length then some (.bytes33V (bs.take 33), bs.drop 33) else none
  | .bytes64, bs =>
    if 64 ≤ bs.length then some (.bytes64V (bs.take 64), bs.drop 64) else none
  | .varBytes, b1 :: b2 :: r =>
    let n := 256 * b1 + b2
    if n ≤ r.length then some (.varBytesV (r.take n), r.drop n) else none
  | .varBytes, _ => none
  | .featureVec, b1 :: b2 :: r =>
    let bitLen := 256 * b1 + b2
    let n := (bitLen + 7) / 8
    if n ≤ r.length then some (.featureVecV bitLen (r.take n), r.drop n)
    else none
  | .featureVec, _ => none

/-- Values matching a schema, in order. -/
def fieldsWF : List FieldKind → List FieldVal → Bool
  | [], [] => true
  | k :: ks, v :: vs => fieldWF k v && fieldsWF ks vs
  | _, _ => false

/-- Serialization of a field tuple. -/
def encodeFields (vs : List FieldVal) : List Nat := (vs.map encodeField).flatten

/-- Deserialization of a field tuple against a schema. -/
def decodeFields : List FieldKind → List Nat → Option (List FieldVal × List Nat)
  | [], bs => some ([], bs)
  | k :: ks, bs =>
    match decodeField k bs with
    | none => none
    | some (v, r) =>
      match decodeFields ks r with
      | none => none
      | some (vs, r') => some (v :: vs, r')

/-- Modelled from the spec: serialization of one TLV record — BigSize type,
BigSize length, value. -/
def tlvEnc (r : Nat × List Nat) : List Nat :=
  bigSizeEnc r.1 ++ bigSizeEnc r.2.length ++ r.2

/-- Serialization of a TLV stream. -/
def tlvStreamEnc (rs : List (Nat × List Nat)) : List Nat := (rs.map tlvEnc).flatten

/-- Modelled from the spec: parse a TLV stream until the bytes are
exhausted, requiring record types to be at least `minNext` and strictly
increasing (a non-monotone type is malformed).  The fuel (number of bytes)
bounds the number of records. -/
def tlvStreamDecF : Nat → Nat → List Nat → Option (List (Nat × List Nat))
  | _, _, [] => some []
  | 0, _, _ :: _ => none
  | fuel + 1, minNext, bs =>
    match bigSizeDec bs with
    | none => none
    | some (t, r1) =>
      match bigSizeDec r1 with
      | none => none
      | some (len, r2) =>
        if minNext ≤ t then
          if len ≤ r2.length then
            match tlvStreamDecF fuel (t + 1) (r2.drop len) with
            | some rs => some ((t, r2.take len) :: rs)
            | none => none
          else none
        else none

/-- A TLV stream parsed with adequate fuel. -/
def tlvStreamDec (bs : List Nat) : Option (List (Nat × List Nat)) :=
  tlvStreamDecF bs.length 0 bs

/-- Well-formedness of a TLV trailer whose next record type must be at
least `minNext`: types strictly increase and types and lengths fit 64
bits. -/
def tlvWF : Nat → List (Nat × List Nat) → Bool
  | _, [] => true
  | minNext, (t, v) :: rs =>
    decide (minNext ≤ t) && decide (t < 18446744073709551616) &&
      decide (v.length < 18446744073709551616) && tlvWF (t + 1) rs

/-- Modelled from the spec: a wire message — a 16-bit type tag, its typed
field tuple, and the TLV trailer carrying unknown extra-data records and
custom records (types at or above `MinCustomRecordsTlvType`) alike. -/
structure WireMessage where
  typ : Nat
  fields : List FieldVal
  trailer : List (Nat × List Nat)
  deriving DecidableEq, Repr

/-- Body bytes of a message: the fields then the TLV trailer. -/
def encodeBody (m : WireMessage) : List Nat :=
  encodeFields m.fields ++ tlvStreamEnc m.trailer

/-- Modelled from the spec: `WriteMessage` — prepend the 2-byte type to the
body, failing when the body exceeds `MaxMsgBody`.  The protocol-version
argument is not inspected by the codec. -/
def WriteMessage (_pver : Nat) (m : WireMessage) : Except WireErr (List Nat) :=
  let body := encodeBody m
  if MaxMsgBody < body.length then Except.error WireErr.bodyTooLarge
  else Except.ok (u16be m.typ ++ body)

/-- Modelled from the spec: `ReadMessage` — read the 2-byte type, dispatch
to the registered schema (an unregistered type is an unknown-message-type
error), decode the fields, and parse whatever remains as the TLV trailer.
The registry maps a type tag to the schema of that message's fields. -/
def ReadMessage (registry : Nat → Option (List FieldKind)) (_pver : Nat)
    (bs : List Nat) : Except WireErr WireMessage :=
  match bs with
  | t1 :: t2 :: body =>
    let typ := 256 * t1 + t2
    if MaxMsgBody < body.length then Except.error WireErr.bodyTooLarge
    else
      match registry typ with
      | none => Except.error WireErr.unknownMessageType
      | some sch =>
        match decodeFields sch body with
        | none => Except.error WireErr.shortRead
        | some (fields, rest) =>
          match tlvStreamDec rest with
          | none => Except.error WireErr.malformedTLV
          | some trailer => Except.ok ⟨typ, fields, trailer⟩
  | _ => Except.error WireErr.shortRead

theorem readDotLines_length {ls : List String} {ds : List String} {r : List String}
    (h : readDotLines ls = some (ds, r)) : r.length < ls.length := by
  induction ls generalizing ds r with
  | nil => simp [readDotLines] at h
  | cons l rest ih =>
    simp only [readDotLines] at h
    split at h
    · simp only [Option.some.injEq, Prod.mk.injEq] at h
      simp [← h.2]
    · split at h
      · exact absurd h (by simp)
      · rename_i ds' r' heq
        simp only [Option.some.injEq, Prod.mk.injEq] at h
        have hlt := ih heq
        rw [← h.2]
        simp only [List.length_cons]
        omega

example :
    readResponse 250 ["250+config-text=", "alpha", "beta", ".", "250 OK"] =
      ((250, "config-text=alpha,beta\nOK", none), []) := by decide

theorem code3_spec : ∀ c : Nat, c < 1000 → 100 ≤ c →
    ((code3 c).length = 3 ∧ goAtoi (code3 c) = some ((c : Nat) : Int)) := by decide

theorem mk_toList (s : String) : String.mk s.toList = s := rfl

theorem line_toList (c : Nat) (sep : Char) (t : String) :
    (code3 c ++ String.singleton sep ++ t).toList =
      ((code3 c).toList ++ [sep]) ++ t.toList := rfl

theorem parseLineFacts (c : Nat) (h1 : 100 ≤ c) (h2 : c ≤ 999) (sep : Char) (t : String) :
    ¬((code3 c ++ String.singleton sep ++ t).length < 4) ∧
    String.mk ((code3 c ++ String.singleton sep ++ t).toList.take 3) = code3 c ∧
    (code3 c ++ String.singleton sep ++ t).toList[3]? = some sep ∧
    String.mk ((code3 c ++ String.singleton sep ++ t).toList.drop 4) = t := by
  obtain ⟨hlen, -⟩ := code3_spec c (by omega) h1
  have hl : (code3 c).toList.length = 3 := hlen
  refine ⟨?_, ?_, ?_, ?_⟩
  · have hs1 : (String.singleton sep).length = 1 := rfl
    simp only [String.length_append, hs1, hlen, Nat.not_lt]
    omega
  · rw [line_toList, List.append_assoc]
    rw [List.take_left' hl, mk_toList]
  · rw [line_toList, List.append_assoc]
    rw [List.getElem?_append_right (by omega)]
    simp [hl, hlen]
  · rw [line_toList, List.drop_left' (by simp [List.length_append, hl, hlen]), mk_toList]

theorem readDotLines_clean (block rest : List String) (h : blockOK block = true) :
    readDotLines (block ++ "." :: rest) = some (block, rest) := by
  induction block with
  | nil => simp [readDotLines]
  | cons l bs ih =>
    simp only [blockOK, List.all_cons, Bool.and_eq_true] at h
    have hhd : ¬(l.toList.head? = some '.') := by
      have := h.1
      simpa using this
    have hne : ¬(l = ".") := by
      intro heq
      subst heq
      simp at hhd
    have hhd' : ¬(l.data.head? = some '.') := hhd
    rw [List.cons_append, readDotLines, if_neg hne, ih h.2]
    simp [hhd, hhd']

theorem readRespLoopF_render (expected : Nat) :
    ∀ (body : List TorLine) (ec : Nat) (et : String) (fuel : Nat) (acc : String),
      body.all lineWF = true → 100 ≤ ec → ec ≤ 999 →
      (renderReply body ec et).length ≤ fuel →
      readRespLoopF (expected : Int) fuel (renderReply body ec et) acc =
        loopSpec expected body ec et acc := by
  intro body
  induction body with
  | nil =>
    intro ec et fuel acc _ h1 h2 hfuel
    simp only [renderReply, List.map_nil, List.flatten_nil, List.nil_append] at hfuel ⊢
    match fuel with
    | 0 => simp at hfuel
    | f + 1 =>
      obtain ⟨hn4, htake, hidx, hdrop⟩ := parseLineFacts ec h1 h2 ' ' et
      obtain ⟨-, hatoi⟩ := code3_spec ec (by omega) h1
      rw [show (" " : String) = String.singleton ' ' from rfl]
      rw [readRespLoopF, if_neg hn4, htake, hatoi]
      simp only [hidx, hdrop, loopSpec]
      by_cases hce : ec = expected
      · subst hce
        rw [if_neg (by simp), if_neg (by simp)]
      · have hci : ((ec : Nat) : Int) ≠ ((expected : Nat) : Int) := by
          simpa using hce
        rw [if_pos hci, if_pos hce]
  | cons l ls ih =>
    intro ec et fuel acc hwf h1 h2 hfuel
    simp only [List.all_cons, Bool.and_eq_true] at hwf
    obtain ⟨hlwf, hlswf⟩ := hwf
    cases l with
    | mid c t =>
      simp only [lineWF, Bool.and_eq_true, decide_eq_true_eq] at hlwf
      obtain ⟨hc1, hc2⟩ := hlwf
      have hrender : renderReply (TorLine.mid c t :: ls) ec et =
          (code3 c ++ "-" ++ t) :: renderReply ls ec et := by
        simp [renderReply, List.flatten_cons, renderLine]
      rw [hrender] at hfuel ⊢
      match fuel with
      | 0 => simp at hfuel
      | f + 1 =>
        obtain ⟨hn4, htake, hidx, hdrop⟩ := parseLineFacts c hc1 hc2 '-' t
        obtain ⟨-, hatoi⟩ := code3_spec c (by omega) hc1
        rw [show ("-" : String) = String.singleton '-' from rfl]
        rw [readRespLoopF, if_neg hn4, htake, hatoi]
        simp only [hidx, hdrop, loopSpec, lineCode, lineText]
        by_cases hce : c = expected
        · subst hce
          rw [if_neg (by simp), if_neg (by simp)]
          exact ih ec et f (acc ++ t ++ "\n") hlswf h1 h2
            (by simp only [List.length_cons] at hfuel; omega)
        · have hci : ((c : Nat) : Int) ≠ ((expected : Nat) : Int) := by
            simpa using hce
          rw [if_pos hci, if_pos hce]
    | dat c t block =>
      simp only [lineWF, Bool.and_eq_true, decide_eq_true_eq] at hlwf
      obtain ⟨⟨hc1, hc2⟩, hblk⟩ := hlwf
      have hrender : renderReply (TorLine.dat c t block :: ls) ec et =
          (code3 c ++ "+" ++ t) :: (block ++ "." :: renderReply ls ec et) := by
        simp [renderReply, List.flatten_cons, renderLine, List.append_assoc]
      rw [hrender] at hfuel ⊢
      match fuel with
      | 0 => simp at hfuel
      | f + 1 =>
        obtain ⟨hn4, htake, hidx, hdrop⟩ := parseLineFacts c hc1 hc2 '+' t
        obtain ⟨-, hatoi⟩ := code3_spec c (by omega) hc1
        rw [show ("+" : String) = String.singleton '+' from rfl]
        rw [readRespLoopF, if_neg hn4, htake, hatoi]
        simp only [hidx, hdrop, readDotLines_clean block _ hblk, loopSpec, lineCode, lineText]
        by_cases hce : c = expected
        · subst hce
          rw [if_neg (by simp), if_neg (by simp)]
          rw [ih ec et f _ hlswf h1 h2
            (by simp only [List.length_cons, List.length_append] at hfuel; omega)]
          rw [String.append_assoc acc t]
        · have hci : ((c : Nat) : Int) ≠ ((expected : Nat) : Int) := by
            simpa using hce
          rw [if_pos hci, if_pos hce, String.append_assoc acc t]

theorem loopSpec_mismatch (expected : Nat) :
    ∀ (body : List TorLine) (ec : Nat) (et : String) (acc : String),
      ((body.map lineCode).any (fun c => c != expected) || (ec != expected)) = true →
      (loopSpec expected body ec et acc).1 = (firstBadCode expected body ec : Int) ∧
      (loopSpec expected body ec et acc).2.2 = some .codeNotMatch := by
  intro body
  induction body with
  | nil =>
    intro ec et acc hbad
    simp only [List.map_nil, List.any_nil, Bool.false_or, bne_iff_ne, ne_eq] at hbad
    simp [loopSpec, firstBadCode, hbad]
  | cons l ls ih =>
    intro ec et acc hbad
    by_cases hce : lineCode l = expected
    · have hfalse : (lineCode l != expected) = false := by simp [hce]
      have hbad' : ((ls.map lineCode).any (fun c => c != expected) || (ec != expected)) = true := by
        simp only [List.map_cons, List.any_cons, hfalse, Bool.false_or] at hbad
        exact hbad
      have hfb : firstBadCode expected (l :: ls) ec = firstBadCode expected ls ec := by
        simp [firstBadCode, List.find?_cons, hfalse]
      simp only [loopSpec]
      rw [if_neg (by simp [hce]), hfb]
      exact ih ec et (acc ++ lineText l ++ "\n") hbad'
    · have htrue : (lineCode l != expected) = true := by simp [hce]
      have hfb : firstBadCode expected (l :: ls) ec = lineCode l := by
        simp [firstBadCode, List.find?_cons, htrue]
      simp only [loopSpec]
      rw [if_pos hce, hfb]
      exact ⟨rfl, rfl⟩

/-- Claim C3: whenever some line of a (well-formed) reply carries a status
code different from the expected one — be it a Mid '-', Data '+' or End ' '
line — `readResponse` returns the first such code together with the reply
text accumulated so far (as described by `loopSpec`) and the
`errCodeNotMatch` ("unexpected code") error; all remaining buffered lines of
the failed reply are discarded, so a subsequent read observes end-of-input
rather than the failed reply's later lines.  The final conjunct checks the
spec's concrete scenario: after "515 Authentication required." followed by a
buffered "250 OK", the 515 code and `errCodeNotMatch` are returned and the
next read does not parse the "250 OK". -/
theorem readResponse_unexpectedCode_drains (expected : Nat) (body : List TorLine)
    (ec : Nat) (et : String)
    (hwf : body.all lineWF = true) (hec1 : 100 ≤ ec) (hec2 : ec ≤ 999)
    (hbad : ((body.map lineCode).any (fun c => c != expected) || (ec != expected)) = true) :
    (readResponse (expected : Int) (renderReply body ec et)).1 =
        loopSpec expected body ec et "" ∧
    (loopSpec expected body ec et "").1 = ((firstBadCode expected body ec : Nat) : Int) ∧
    (loopSpec expected body ec et "").2.2 = some ReadErr.codeNotMatch ∧
    (readResponse (expected : Int) (renderReply body ec et)).2 = [] ∧
    readResponse (expected : Int) (readResponse (expected : Int) (renderReply body ec et)).2 =
      ((0, "", some ReadErr.eof), []) ∧
    readResponse 250 ["515 Authentication required.", "250 OK"] =
      ((515, "Authentication required.", some ReadErr.codeNotMatch), []) := by
  have hmain := readRespLoopF_render expected body ec et (renderReply body ec et).length ""
    hwf hec1 hec2 (le_refl _)
  have hmis := loopSpec_mismatch expected body ec et "" hbad
  exact ⟨hmain, hmis.1, hmis.2, rfl, rfl, by decide⟩

theorem readResponse_unexpectedCode_drains_witness :
    (readResponse ((250 : Nat) : Int) (renderReply [TorLine.mid 250 "EXTENDED_EVENTS"] 515 "Authentication required.")).1 =
        loopSpec 250 [TorLine.mid 250 "EXTENDED_EVENTS"] 515 "Authentication required." "" ∧
    (loopSpec 250 [TorLine.mid 250 "EXTENDED_EVENTS"] 515 "Authentication required." "").1 =
      ((firstBadCode 250 [TorLine.mid 250 "EXTENDED_EVENTS"] 515 : Nat) : Int) ∧
    (loopSpec 250 [TorLine.mid 250 "EXTENDED_EVENTS"] 515 "Authentication required." "").2.2 =
      some ReadErr.codeNotMatch ∧
    (readResponse ((250 : Nat) : Int) (renderReply [TorLine.mid 250 "EXTENDED_EVENTS"] 515 "Authentication required.")).2 = [] ∧
    readResponse ((250 : Nat) : Int)
        (readResponse ((250 : Nat) : Int) (renderReply [TorLine.mid 250 "EXTENDED_EVENTS"] 515 "Authentication required.")).2 =
      ((0, "", some ReadErr.eof), []) ∧
    readResponse 250 ["515 Authentication required.", "250 OK"] =
      ((515, "Authentication required.", some ReadErr.codeNotMatch), []) :=
  readResponse_unexpectedCode_drains 250 [TorLine.mid 250 "EXTENDED_EVENTS"] 515
    "Authentication required." (by decide) (by decide) (by decide) (by decide)

/-- Claim C6: `readResponse` collapses a DataReplyLine into its header line
with the dot-terminated data lines comma-joined, and joins successive reply
lines with a newline.  The general conjunct handles an arbitrary data-reply
block followed by an end line; the second conjunct is the spec's concrete
scenario. -/
theorem readResponse_dataBlock (key : String) (block : List String) (endText : String)
    (hblk : blockOK block = true) :
    readResponse 250 (("250+" ++ key) :: (block ++ ["."] ++ ["250 " ++ endText])) =
      ((250, key ++ String.intercalate "," block ++ "\n" ++ endText, none), []) ∧
    readResponse 250 ["250+config-text=", "alpha", "beta", ".", "250 OK"] =
      ((250, "config-text=alpha,beta\nOK", none), []) := by
  constructor
  · have hwf : [TorLine.dat 250 key block].all lineWF = true := by
      simp [lineWF, hblk]
    have hlines : ("250+" ++ key) :: (block ++ ["."] ++ ["250 " ++ endText]) =
        renderReply [TorLine.dat 250 key block] 250 endText := by
      simp only [renderReply, renderLine, List.map_cons, List.map_nil, List.flatten_cons,
        List.flatten_nil, List.append_nil, List.cons_append, List.append_assoc]
      rw [show code3 250 = "250" from rfl]
      rw [show ("250" ++ "+" : String) = "250+" from rfl]
      rw [show ("250" ++ " " : String) = "250 " from rfl]
    have h := readRespLoopF_render 250 [TorLine.dat 250 key block] 250 endText
      (renderReply [TorLine.dat 250 key block] 250 endText).length "" hwf
      (by omega) (by omega) (le_refl _)
    have h2 : loopSpec 250 [TorLine.dat 250 key block] 250 endText "" =
        ((250 : Int), key ++ String.intercalate "," block ++ "\n" ++ endText, none) := by
      simp [loopSpec, lineCode, lineText, String.append_assoc]
    rw [hlines]
    show (readRespLoopF ((250 : Nat) : Int)
      (renderReply [TorLine.dat 250 key block] 250 endText).length
      (renderReply [TorLine.dat 250 key block] 250 endText) "", ([] : List String)) = _
    rw [h, h2]
  · decide

theorem strContains_iff (s pat : String) :
    strContains s pat = true ↔ ∃ a b : String, s = a ++ pat ++ b := by
  unfold strContains
  rw [List.any_eq_true]
  constructor
  · rintro ⟨suf, hmem, hpre⟩
    rw [ List.isPrefixOf_iff_prefix] at hpre
    rw [List.mem_tails] at hmem
    have hinf : pat.toList <:+: s.toList :=
      List.infix_iff_prefix_suffix.mpr ⟨suf, hpre, hmem⟩
    obtain ⟨a, b, hab⟩ := hinf
    refine ⟨String.mk a, String.mk b, ?_⟩
    apply String.ext
    simpa using hab.symm
  · rintro ⟨a, b, rfl⟩
    refine ⟨pat.toList ++ b.toList, ?_, ?_⟩
    · rw [List.mem_tails]
      exact ⟨a.toList, by simp⟩
    · rw [ List.isPrefixOf_iff_prefix]
      exact ⟨b.toList, rfl⟩

/-- Claim C9: `supportsAuthMethod` matches by substring containment, not by
exact token.  It returns true exactly when a METHODS key is present and the
method name occurs anywhere inside its raw value, and false when the key is
absent; the last conjunct shows a method name inside a longer token still
counts. -/
theorem supportsAuthMethod_spec (i : ProtocolInfo) (m : String) :
    (supportsAuthMethod i m = true ↔
      ∃ v a b : String, List.lookup "METHODS" i = some v ∧ v = a ++ m ++ b) ∧
    (List.lookup "METHODS" i = none → supportsAuthMethod i m = false) ∧
    supportsAuthMethod [("METHODS", "FOONULLBAR")] "NULL" = true := by
  refine ⟨?_, ?_, by decide⟩
  · unfold supportsAuthMethod
    match h : List.lookup "METHODS" i with
    | none => simp
    | some v =>
      rw [strContains_iff]
      constructor
      · rintro ⟨a, b, rfl⟩
        exact ⟨a ++ m ++ b, a, b, rfl, rfl⟩
      · rintro ⟨v', a, b, hv, rfl⟩
        obtain rfl : v = a ++ m ++ b := by simpa using hv
        exact ⟨a, b, rfl⟩
  · intro h
    unfold supportsAuthMethod
    rw [h]

theorem supportsAuthMethod_spec_witness :
    supportsAuthMethod [("METHODS", "NULL,SAFECOOKIE")] "SAFECOOKIE" = true :=
  (supportsAuthMethod_spec [("METHODS", "NULL,SAFECOOKIE")] "SAFECOOKIE").1.mpr
    ⟨"NULL,SAFECOOKIE", "NULL,", "", by decide, by decide⟩

/-- Counterexample to claim C4: with a non-empty password and a server that
advertises SAFECOOKIE but not HASHEDPASSWORD, `authenticate` does not fall
back to the SAFECOOKIE handshake — it fails with the method-not-supported
error. -/
theorem authSelect_no_safecookie_fallback :
    authSelect "pw" [("METHODS", "SAFECOOKIE")] =
      Except.error (AuthSelectErr.methodNotSupported "HASHEDPASSWORD") ∧
    authSelect "pw" [("METHODS", "SAFECOOKIE")] ≠ Except.ok AuthMethod.safeCookie := by
  decide

/-- Claim C4 as amended: when a password is configured, HASHEDPASSWORD is
required — it is selected if advertised and otherwise authentication fails
even if SAFECOOKIE or NULL are advertised; when no password is configured,
SAFECOOKIE is preferred, then NULL, then the call fails with
`noSupportedAuth`. -/
theorem authSelect_priority (password : String) (info : ProtocolInfo) :
    (password ≠ "" → supportsAuthMethod info "HASHEDPASSWORD" = true →
      authSelect password info = Except.ok AuthMethod.hashedPassword) ∧
    (password ≠ "" → supportsAuthMethod info "HASHEDPASSWORD" = false →
      authSelect password info =
        Except.error (AuthSelectErr.methodNotSupported "HASHEDPASSWORD")) ∧
    (password = "" → supportsAuthMethod info "SAFECOOKIE" = true →
      authSelect password info = Except.ok AuthMethod.safeCookie) ∧
    (password = "" → supportsAuthMethod info "SAFECOOKIE" = false →
      supportsAuthMethod info "NULL" = true →
      authSelect password info = Except.ok AuthMethod.null) ∧
    (password = "" → supportsAuthMethod info "SAFECOOKIE" = false →
      supportsAuthMethod info "NULL" = false →
      authSelect password info = Except.error AuthSelectErr.noSupportedAuth) := by
  refine ⟨?_, ?_, ?_, ?_, ?_⟩ <;> intro h1 h2 <;>
    first
      | (intro h3; simp [authSelect, h1, h2, h3])
      | simp [authSelect, h1, h2]

theorem authSelect_priority_witness :
    authSelect "" [("METHODS", "SAFECOOKIE")] = Except.ok AuthMethod.safeCookie :=
  (authSelect_priority "" [("METHODS", "SAFECOOKIE")]).2.2.1 rfl (by decide)

/-- Helper for `supportsV3_spec`: the conjunction holds whenever the version
is ill-formed and the checker errors. -/
theorem supportsV3_spec_of_error (v : String) (e : VersionErr)
    (he : supportsV3 v = Except.error e) (hwf : versionWellFormed v = false) :
    (supportsV3 v = Except.ok () ↔
      (versionWellFormed v = true ∧ strLtGo v MinTorVersion = false)) ∧
    (versionWellFormed v = false → ∃ e', supportsV3 v = Except.error e') ∧
    (versionWellFormed v = true → strLtGo v MinTorVersion = true →
      supportsV3 v = Except.error VersionErr.belowMinimum) := by
  refine ⟨?_, fun _ => ⟨e, he⟩, ?_⟩
  · rw [he, hwf]
    simp
  · intro ht
    rw [hwf] at ht
    cases ht

/-- Claim C8: `supportsV3` accepts exactly the well-formed version strings
that are lexicographically at least "0.3.3.6" (the comparison is on the full
original string); malformed strings always produce an error, and well-formed
strings below the minimum produce the below-minimum error. -/
theorem supportsV3_spec (v : String) :
    (supportsV3 v = Except.ok () ↔
      (versionWellFormed v = true ∧ strLtGo v MinTorVersion = false)) ∧
    (versionWellFormed v = false → ∃ e, supportsV3 v = Except.error e) ∧
    (versionWellFormed v = true → strLtGo v MinTorVersion = true →
      supportsV3 v = Except.error VersionErr.belowMinimum) := by
  match hsp : splitOnChar '.' v.toList with
  | [p1, p2, p3, p4] =>
    have hv3 : supportsV3 v =
        (if ((goAtoi (String.mk p1)).isSome && (goAtoi (String.mk p2)).isSome &&
            (goAtoi (String.mk p3)).isSome &&
            (goAtoi (String.mk ((splitOnChar '-' p4).headD []))).isSome) = true then
          (if strLtGo v MinTorVersion = true then Except.error VersionErr.belowMinimum
           else Except.ok ())
        else Except.error VersionErr.atoiErr) := by
      simp only [supportsV3, hsp]
    have hwf : versionWellFormed v =
        ((goAtoi (String.mk p1)).isSome && (goAtoi (String.mk p2)).isSome &&
          (goAtoi (String.mk p3)).isSome &&
          (goAtoi (String.mk ((splitOnChar '-' p4).headD []))).isSome) := by
      simp only [versionWellFormed, hsp]
    by_cases hw : ((goAtoi (String.mk p1)).isSome && (goAtoi (String.mk p2)).isSome &&
        (goAtoi (String.mk p3)).isSome &&
        (goAtoi (String.mk ((splitOnChar '-' p4).headD []))).isSome) = true
    · rw [hw] at hwf
      rw [hv3, if_pos hw]
      by_cases hlt : strLtGo v MinTorVersion = true
      · rw [if_pos hlt]
        refine ⟨by simp [hlt], by simp [hwf], fun _ _ => rfl⟩
      · have hlt' := Bool.not_eq_true _ ▸ hlt
        rw [if_neg hlt]
        exact ⟨by simp [hwf, hlt'], by simp [hwf], fun _ h => absurd h hlt⟩
    · have hw' := Bool.not_eq_true _ ▸ hw
      rw [hw'] at hwf
      exact supportsV3_spec_of_error v VersionErr.atoiErr (by rw [hv3, if_neg hw]) hwf
  | [] =>
    exact supportsV3_spec_of_error v VersionErr.badFormat
      (by simp only [supportsV3, hsp]) (by simp only [versionWellFormed, hsp])
  | [p1] =>
    exact supportsV3_spec_of_error v VersionErr.badFormat
      (by simp only [supportsV3, hsp]) (by simp only [versionWellFormed, hsp])
  | [p1, p2] =>
    exact supportsV3_spec_of_error v VersionErr.badFormat
      (by simp only [supportsV3, hsp]) (by simp only [versionWellFormed, hsp])
  | [p1, p2, p3] =>
    exact supportsV3_spec_of_error v VersionErr.badFormat
      (by simp only [supportsV3, hsp]) (by simp only [versionWellFormed, hsp])
  | p1 :: p2 :: p3 :: p4 :: p5 :: rest =>
    exact supportsV3_spec_of_error v VersionErr.badFormat
      (by simp only [supportsV3, hsp]) (by simp only [versionWellFormed, hsp])

theorem supportsV3_spec_witness :
    supportsV3 "0.4.1.5" = Except.ok () ∧
    supportsV3 "0.3.3.5" = Except.error VersionErr.belowMinimum ∧
    (∃ e, supportsV3 "0.3.3" = Except.error e) ∧
    supportsV3 "0.4.1.5-rc" = Except.ok () :=
  ⟨(supportsV3_spec "0.4.1.5").1.mpr ⟨by decide, by decide⟩,
   (supportsV3_spec "0.3.3.5").2.2 (by decide) (by decide),
   (supportsV3_spec "0.3.3").2.1 (by decide),
   (supportsV3_spec "0.4.1.5-rc").1.mpr ⟨by decide, by decide⟩⟩

/-- The comparison in `supportsV3` really is lexicographic on the full
version string: "0.3.3.10" is numerically above the minimum but
lexicographically below it, and is rejected. -/
theorem supportsV3_full_string_comparison :
    supportsV3 "0.3.3.10" = Except.error VersionErr.belowMinimum ∧
    strLtGo "0.3.3.10" MinTorVersion = true := by decide

/-- Counterexample to claim C5: `Stop` on a fresh (never-started) controller
is not a no-op returning ok.  It passes the compare-and-swap, permanently
sets the stopped flag, and fails closing the absent connection; afterwards a
`Start` still succeeds but `Reconnect` is refused with `errTCStopped`. -/
theorem stop_on_fresh_not_noop :
    (Controller.Stop ⟨true, true, true, true⟩ newController).2.stopped = true ∧
    newController.stopped = false ∧
    (Controller.Stop ⟨true, true, true, true⟩ newController).1 =
      Except.error TorErr.nilConn ∧
    (Controller.Reconnect ⟨true, true, true, true⟩
        (Controller.Start ⟨true, true, true, true⟩
          (Controller.Stop ⟨true, true, true, true⟩ newController).2).2).1 =
      Except.error TorErr.stopped := by decide

/-- Claim C5 as amended: the lifecycle table holds except for `stop()` on a
fresh controller, which is not a no-op: it sets the stopped flag (so a later
`reconnect` fails with `errTCStopped` even after a successful `start`) and
returns an error for the absent connection.  The remaining rows are as
specified: `start` is idempotent; a second `stop` is a no-op returning ok;
`stop` in the running state issues DEL_ONION only when an onion service is
active and moves to Stopped; `reconnect` fails with `errTCNotStarted` before
`start`, fails with `errTCStopped` after `stop`, and succeeds only while
running. -/
theorem controller_lifecycle (env : TorEnv) :
    (env.dialOK = true → env.authOK = true →
      Controller.Start env newController =
        (Except.ok (),
          { started := true, stopped := false, connOpen := true,
            activeServiceID := "" })) ∧
    (∀ c : ControllerState, c.started = true →
      Controller.Start env c = (Except.ok (), c)) ∧
    ((Controller.Stop env newController).2.stopped = true ∧
      (Controller.Stop env newController).1 = Except.error TorErr.nilConn) ∧
    (∀ c : ControllerState, c.stopped = true →
      Controller.Stop env c = (Except.ok (), c)) ∧
    (∀ c : ControllerState, c.stopped = false → c.connOpen = true →
      c.activeServiceID = "" → env.closeOK = true →
      Controller.Stop env c =
        (Except.ok (), { c with stopped := true, connOpen := false })) ∧
    (∀ c : ControllerState, c.stopped = false → c.connOpen = true →
      c.activeServiceID ≠ "" → env.delOnionOK = true → env.closeOK = true →
      Controller.Stop env c =
        (Except.ok (),
          { c with stopped := true, connOpen := false, activeServiceID := "" })) ∧
    (∀ c : ControllerState, c.started = false →
      Controller.Reconnect env c = (Except.error TorErr.notStarted, c)) ∧
    (∀ c : ControllerState, c.started = true → c.stopped = true →
      Controller.Reconnect env c = (Except.error TorErr.stopped, c)) ∧
    (∀ c : ControllerState, c.started = true → c.stopped = false →
      env.dialOK = true → env.authOK = true →
      Controller.Reconnect env c =
        (Except.ok (), { c with connOpen := true, activeServiceID := "" })) := by
  obtain ⟨d, a, o, k⟩ := env
  refine ⟨?_, ?_, ?_, ?_, ?_, ?_, ?_, ?_, ?_⟩
  · intro hd ha
    subst hd ha
    rfl
  · intro c hs
    simp [Controller.Start, hs]
  · exact ⟨rfl, rfl⟩
  · intro c hs
    simp [Controller.Stop, hs]
  · intro c hs hc hid hk
    obtain ⟨cs, ct, cc, cid⟩ := c
    simp only at hs hc hid hk
    subst hs hc hid hk
    rfl
  · intro c hs hc hid ho hk
    obtain ⟨cs, ct, cc, cid⟩ := c
    simp only at hs hc hid ho hk
    subst hs hc ho hk
    simp [Controller.Stop, DelOnion, hid]
  · intro c hs
    simp [Controller.Reconnect, hs]
  · intro c hs ht
    simp [Controller.Reconnect, hs, ht]
  · intro c hs ht hd ha
    obtain ⟨cs, ct, cc, cid⟩ := c
    simp only at hs ht
    subst hs ht hd ha
    rfl

theorem controller_lifecycle_witness :
    Controller.Start ⟨true, true, true, true⟩ newController =
      (Except.ok (),
        { started := true, stopped := false, connOpen := true,
          activeServiceID := "" }) :=
  (controller_lifecycle ⟨true, true, true, true⟩).1 rfl rfl

/-- Claim C10: `Stop` sets the stopped flag before any teardown (after any
`Stop` call the flag is set), so every subsequent `Stop` returns ok
immediately with no state change — even when the first `Stop` failed in
DEL_ONION, in which case the active service ID is not reset and the
connection is not closed, and that partially-torn-down state persists. -/
theorem stop_stopped_flag (env : TorEnv) (c : ControllerState) :
    (Controller.Stop env c).2.stopped = true := by
  by_cases hst : c.stopped = true
  · simp [Controller.Stop, hst]
  · have hst' : c.stopped = false := by rwa [Bool.not_eq_true] at hst
    simp only [Controller.Stop, hst', Bool.false_eq_true, if_false]
    repeat' first
      | rfl
      | split

theorem stop_sets_flag_first_and_is_never_retried (env env2 : TorEnv)
    (c : ControllerState) :
    (Controller.Stop env c).2.stopped = true ∧
    Controller.Stop env2 (Controller.Stop env c).2 =
      (Except.ok (), (Controller.Stop env c).2) ∧
    (c.stopped = false → c.connOpen = true → c.activeServiceID ≠ "" →
      env.delOnionOK = false →
      (Controller.Stop env c).1 = Except.error TorErr.delOnionFailed ∧
      (Controller.Stop env c).2 = { c with stopped := true }) := by
  refine ⟨stop_stopped_flag env c, ?_, ?_⟩
  · generalize hgen : (Controller.Stop env c).2 = s
    have hs : s.stopped = true := hgen ▸ stop_stopped_flag env c
    simp [Controller.Stop, hs]
  · intro hs hc hid ho
    obtain ⟨d, a, o, k⟩ := env
    obtain ⟨cs, ct, cc, cid⟩ := c
    simp only at hs hc hid ho
    subst hs hc ho
    simp [Controller.Stop, DelOnion, hid]

theorem stop_sets_flag_first_witness :
    (Controller.Stop ⟨true, true, false, true⟩
        ⟨true, false, true, "serviceid"⟩).1 = Except.error TorErr.delOnionFailed ∧
    (Controller.Stop ⟨true, true, false, true⟩
        ⟨true, false, true, "serviceid"⟩).2 =
      { started := true, stopped := true, connOpen := true,
        activeServiceID := "serviceid" } ∧
    Controller.Stop ⟨true, true, true, true⟩
        (Controller.Stop ⟨true, true, false, true⟩
          ⟨true, false, true, "serviceid"⟩).2 =
      (Except.ok (),
        (Controller.Stop ⟨true, true, false, true⟩
          ⟨true, false, true, "serviceid"⟩).2) := by
  have h := stop_sets_flag_first_and_is_never_retried ⟨true, true, false, true⟩
    ⟨true, true, true, true⟩ ⟨true, false, true, "serviceid"⟩
  have h3 := h.2.2 rfl rfl (by decide) rfl
  exact ⟨h3.1, h3.2, h.2.1⟩

theorem readResponse_dataBlock_witness :
    readResponse 250 (("250+" ++ "config-text=") :: (["alpha", "beta"] ++ ["."] ++ ["250 " ++ "OK"])) =
      ((250, "config-text=" ++ String.intercalate "," ["alpha", "beta"] ++ "\n" ++ "OK",
        none), []) ∧
    readResponse 250 ["250+config-text=", "alpha", "beta", ".", "250 OK"] =
      ((250, "config-text=alpha,beta\nOK", none), []) :=
  readResponse_dataBlock "config-text=" ["alpha", "beta"] "OK" (by decide)

theorem roundStep_length (st : List Nat) (p : Nat × Nat) (h : st.length = 8) :
    (roundStep st p).length = 8 := by
  unfold roundStep
  split
  · rfl
  · exact h

theorem foldl_roundStep_length (l : List (Nat × Nat)) :
    ∀ st : List Nat, st.length = 8 → ((l.foldl roundStep st).length = 8) := by
  induction l with
  | nil => intro st h; exact h
  | cons p ps ih =>
    intro st h
    exact ih (roundStep st p) (roundStep_length st p h)

theorem sha256Compress_length (h block : List Nat) (hl : h.length = 8) :
    (sha256Compress h block).length = 8 := by
  unfold sha256Compress
  dsimp only
  split
  · rfl
  · exact hl

theorem foldl_compress_length (bs : List (List Nat)) :
    ∀ h : List Nat, h.length = 8 → ((bs.foldl sha256Compress h).length = 8) := by
  induction bs with
  | nil => intro h hl; exact hl
  | cons b rest ih =>
    intro h hl
    exact ih (sha256Compress h b) (sha256Compress_length h b hl)

theorem flatten_map_u32be_length (l : List Nat) :
    ((l.map u32be).flatten).length = 4 * l.length := by
  induction l with
  | nil => rfl
  | cons x xs ih =>
    simp only [List.map_cons, List.flatten_cons, List.length_append, ih,
      List.length_cons]
    simp [u32be]
    omega

theorem sha256_length (msg : List Nat) : (sha256 msg).length = 32 := by
  unfold sha256
  rw [flatten_map_u32be_length,
    foldl_compress_length (chunks64 (sha256Pad msg)) sha256InitH rfl]

theorem computeHMAC256_length (key message : List Nat) :
    (computeHMAC256 key message).length = 32 := by
  unfold computeHMAC256
  exact sha256_length _

/-- Claim C2: the SAFECOOKIE handshake (1) fails whenever the cookie file's
content is not exactly 32 bytes (and any cookie it accepts has exactly 32
bytes); (2) fails whenever SERVERHASH or SERVERNONCE is missing or not 32
bytes when decoded, or the decoded SERVERHASH differs from HMAC-SHA256 keyed
with the server-to-controller key over cookie ++ client nonce ++ server
nonce; and (3) on success sends AUTHENTICATE followed by the lowercase hex
encoding of HMAC-SHA256 keyed with the controller-to-server key over the
same message. -/
theorem safeCookie_spec (env : SafeCookieEnv) (info : ProtocolInfo) :
    (∀ path content, List.lookup "COOKIEFILE" info = some path →
      env.readFile (trimQuotes path) = some content → content.length ≠ 32 →
      authenticateViaSafeCookie env info = Except.error SCErr.badCookieLen) ∧
    (∀ cookie, getAuthCookie env info = Except.ok cookie → cookie.length = 32) ∧
    (∀ cookie, getAuthCookie env info = Except.ok cookie →
      List.lookup "SERVERHASH" env.challengeReply = none →
      authenticateViaSafeCookie env info = Except.error SCErr.noServerHash) ∧
    (∀ cookie sh dsh, getAuthCookie env info = Except.ok cookie →
      List.lookup "SERVERHASH" env.challengeReply = some sh →
      hexDecode sh = some dsh → dsh.length ≠ 32 →
      authenticateViaSafeCookie env info = Except.error SCErr.badServerHashLen) ∧
    (∀ cookie sh dsh, getAuthCookie env info = Except.ok cookie →
      List.lookup "SERVERHASH" env.challengeReply = some sh →
      hexDecode sh = some dsh → dsh.length = 32 →
      List.lookup "SERVERNONCE" env.challengeReply = none →
      authenticateViaSafeCookie env info = Except.error SCErr.noServerNonce) ∧
    (∀ cookie sh dsh sn dsn, getAuthCookie env info = Except.ok cookie →
      List.lookup "SERVERHASH" env.challengeReply = some sh →
      hexDecode sh = some dsh → dsh.length = 32 →
      List.lookup "SERVERNONCE" env.challengeReply = some sn →
      hexDecode sn = some dsn → dsn.length ≠ 32 →
      authenticateViaSafeCookie env info = Except.error SCErr.badServerNonceLen) ∧
    (∀ cookie sh dsh sn dsn, getAuthCookie env info = Except.ok cookie →
      List.lookup "SERVERHASH" env.challengeReply = some sh →
      hexDecode sh = some dsh → dsh.length = 32 →
      List.lookup "SERVERNONCE" env.challengeReply = some sn →
      hexDecode sn = some dsn → dsn.length = 32 →
      dsh ≠ computeHMAC256 serverKey (cookie ++ env.clientNonce ++ dsn) →
      authenticateViaSafeCookie env info = Except.error SCErr.serverHashMismatch) ∧
    (∀ cookie sh dsh sn dsn, getAuthCookie env info = Except.ok cookie →
      List.lookup "SERVERHASH" env.challengeReply = some sh →
      hexDecode sh = some dsh → dsh.length = 32 →
      List.lookup "SERVERNONCE" env.challengeReply = some sn →
      hexDecode sn = some dsn → dsn.length = 32 →
      dsh = computeHMAC256 serverKey (cookie ++ env.clientNonce ++ dsn) →
      authenticateViaSafeCookie env info =
        Except.ok ("AUTHENTICATE " ++
          hexEncode (computeHMAC256 controllerKey
            (cookie ++ env.clientNonce ++ dsn)))) := by
  refine ⟨?_, ?_, ?_, ?_, ?_, ?_, ?_, ?_⟩
  · intro path content hp hr hlen
    simp only [authenticateViaSafeCookie, getAuthCookie, hp, hr]
    simp [hlen]
  · intro cookie h
    unfold getAuthCookie at h
    split at h
    · exact absurd h (by simp)
    · split at h
      · exact absurd h (by simp)
      · split at h
        · exact absurd h (by simp)
        · rename_i hlen
          simp only [Except.ok.injEq] at h
          subst h
          omega
  · intro cookie hck hmiss
    simp [authenticateViaSafeCookie, hck, hmiss]
  · intro cookie sh dsh hck hsh hdec hlen
    simp only [authenticateViaSafeCookie, hck, hsh, hdec]
    simp [hlen]
  · intro cookie sh dsh hck hsh hdec hlen hmiss
    simp only [authenticateViaSafeCookie, hck, hsh, hdec]
    simp [hlen, hmiss]
  · intro cookie sh dsh sn dsn hck hsh hdech hlenh hsn hdecn hlenn
    simp only [authenticateViaSafeCookie, hck, hsh, hdech, hsn, hdecn]
    simp [hlenh, hlenn]
  · intro cookie sh dsh sn dsn hck hsh hdech hlenh hsn hdecn hlenn hne
    rw [List.append_assoc] at hne
    simp only [authenticateViaSafeCookie, hck, hsh, hdech, hsn, hdecn]
    simp [hlenh, hlenn, Ne.symm hne]
  · intro cookie sh dsh sn dsn hck hsh hdech hlenh hsn hdecn hlenn heq
    simp only [authenticateViaSafeCookie, hck, hsh, hdech, hsn, hdecn]
    simp [hlenh, hlenn, heq, computeHMAC256_length]

theorem safeCookie_spec_witness :
    authenticateViaSafeCookie
      ⟨fun _ => some (List.replicate 32 0), List.replicate 32 0xAA,
        [("SERVERHASH",
          "c0efaea62b86e0f81ffdb345896b09b6c9d21b40ef2c401c00fd42798f9dbedf"),
         ("SERVERNONCE",
          "bbbbbbbbbbbbbbbbbbbbbbbbbbbbbbbbbbbbbbbbbbbbbbbbbbbbbbbbbbbbbbbb")]⟩
      [("COOKIEFILE", "\"/run/tor/control.authcookie\"")] =
      Except.ok ("AUTHENTICATE " ++
        hexEncode (computeHMAC256 controllerKey
          (List.replicate 32 0 ++ List.replicate 32 0xAA ++
            List.replicate 32 0xBB))) ∧
    hexEncode (computeHMAC256 controllerKey
        (List.replicate 32 0 ++ List.replicate 32 0xAA ++ List.replicate 32 0xBB)) =
      "bb5aee37b2a6b2d6788bee767cff35f9532493a56f753698662387494dcb5c9c" := by
  refine ⟨?_, by decide⟩
  exact (safeCookie_spec
      ⟨fun _ => some (List.replicate 32 0), List.replicate 32 0xAA,
        [("SERVERHASH",
          "c0efaea62b86e0f81ffdb345896b09b6c9d21b40ef2c401c00fd42798f9dbedf"),
         ("SERVERNONCE",
          "bbbbbbbbbbbbbbbbbbbbbbbbbbbbbbbbbbbbbbbbbbbbbbbbbbbbbbbbbbbbbbbb")]⟩
      [("COOKIEFILE", "\"/run/tor/control.authcookie\"")]).2.2.2.2.2.2.2
    (List.replicate 32 0)
    "c0efaea62b86e0f81ffdb345896b09b6c9d21b40ef2c401c00fd42798f9dbedf"
    (computeHMAC256 serverKey
      (List.replicate 32 0 ++ List.replicate 32 0xAA ++ List.replicate 32 0xBB))
    "bbbbbbbbbbbbbbbbbbbbbbbbbbbbbbbbbbbbbbbbbbbbbbbbbbbbbbbbbbbbbbbb"
    (List.replicate 32 0xBB)
    (by decide) (by decide) (by decide)
    (computeHMAC256_length serverKey _)
    (by decide) (by decide) (by decide)
    rfl

/-- Claim C7: a reader that meets an address-type discriminator other than
the four known kinds assigns the discriminator byte and all remaining bytes
of the address block to a single unknown address, and the writer re-emits
such a payload unchanged; concretely, writing an IPv4 address, a v2 onion
address and an unknown-discriminator payload starting with byte 0xFF and
reading the block back yields three addresses whose third entry is the
unchanged payload, rendering as the hex of its bytes ("ff0102"). -/
theorem addrList_unknownDiscriminator :
    (∀ d rest, d ≠ 1 → d ≠ 2 → d ≠ 3 → d ≠ 4 →
      readAddrList (d :: rest) = some [NetAddr.unknownA (d :: rest)]) ∧
    (∀ payload, writeAddr (NetAddr.unknownA payload) = some payload) ∧
    (writeNetAddrs
        [NetAddr.tcp4 [127, 0, 0, 1] 8080,
         NetAddr.onionV2 "abcdefghijklmnop.onion" 9065,
         NetAddr.unknownA [255, 1, 2]]).bind readNetAddrs =
      some [NetAddr.tcp4 [127, 0, 0, 1] 8080,
        NetAddr.onionV2 "abcdefghijklmnop.onion" 9065,
        NetAddr.unknownA [255, 1, 2]] ∧
    NetAddr.render (NetAddr.unknownA [255, 1, 2]) = hexEncode [255, 1, 2] ∧
    NetAddr.render (NetAddr.unknownA [255, 1, 2]) = "ff0102" ∧
    NetAddr.render (NetAddr.tcp4 [127, 0, 0, 1] 8080) = "127.0.0.1:8080" ∧
    NetAddr.render (NetAddr.onionV2 "abcdefghijklmnop.onion" 9065) =
      "abcdefghijklmnop.onion:9065" := by
  refine ⟨?_, fun _ => rfl, by decide, rfl, by decide, by decide, by decide⟩
  intro d rest h1 h2 h3 h4
  simp only [readAddrList, List.length_cons, readAddrsF]
  simp [h1, h2, h3, h4]

theorem addrList_unknownDiscriminator_witness :
    readAddrList [255, 1, 2] = some [NetAddr.unknownA [255, 1, 2]] ∧
    writeAddr (NetAddr.unknownA [255, 1, 2]) = some [255, 1, 2] :=
  ⟨addrList_unknownDiscriminator.1 255 [1, 2] (by decide) (by decide) (by decide)
    (by decide),
   addrList_unknownDiscriminator.2.1 [255, 1, 2]⟩

theorem bigSizeEnc_length_pos (n : Nat) : 0 < (bigSizeEnc n).length := by
  unfold bigSizeEnc
  split
  · simp
  · split
    · simp [u16be]
    · split
      · simp [u32be]
      · simp [u64be]

theorem bigSizeDec_enc (n : Nat) (h : n < 18446744073709551616)
    (rest : List Nat) : bigSizeDec (bigSizeEnc n ++ rest) = some (n, rest) := by
  by_cases h1 : n < 253
  · simp [bigSizeEnc, bigSizeDec, h1]
  · by_cases h2 : n ≤ 65535
    · simp [bigSizeEnc, bigSizeDec, h1, h2, u16be, List.cons_append]
      omega
    · by_cases h3 : n ≤ 4294967295
      · simp [bigSizeEnc, bigSizeDec, h1, h2, h3, u32be, List.cons_append]
        omega
      · simp [bigSizeEnc, bigSizeDec, h1, h2, h3, u64be, List.cons_append]
        omega

theorem decodeField_enc (k : FieldKind) (v : FieldVal) (h : fieldWF k v = true)
    (rest : List Nat) : decodeField k (encodeField v ++ rest) = some (v, rest) := by
  cases k <;> cases v <;>
    simp only [fieldWF, Bool.false_eq_true, Bool.and_eq_true, decide_eq_true_eq] at h
  · simp [encodeField, decodeField]
  · rename_i n
    simp [encodeField, decodeField, u16be, List.cons_append]
    omega
  · rename_i n
    simp [encodeField, decodeField, u32be, List.cons_append]
    omega
  · rename_i n
    simp [encodeField, decodeField, u64be, List.cons_append]
    omega
  · rename_i bs
    simp only [encodeField, decodeField]
    rw [if_pos (by simp [h]), List.take_left' h, List.drop_left' h]
  · rename_i bs
    simp only [encodeField, decodeField]
    rw [if_pos (by simp [h]), List.take_left' h, List.drop_left' h]
  · rename_i bs
    simp only [encodeField, decodeField]
    rw [if_pos (by simp [h]), List.take_left' h, List.drop_left' h]
  · rename_i bs
    simp only [encodeField, decodeField, u16be, List.cons_append, List.append_assoc]
    have hn : 256 * (bs.length / 256 % 256) + bs.length % 256 = bs.length := by
      omega
    simp only [hn]
    rw [if_pos (by simp)]
    simp [List.take_left, List.drop_left]
  · rename_i bitLen bs
    obtain ⟨hb, hl⟩ := h
    simp only [encodeField, decodeField, u16be, List.cons_append, List.append_assoc]
    have hn : 256 * (bitLen / 256 % 256) + bitLen % 256 = bitLen := by omega
    simp only [hn, ← hl]
    rw [if_pos (by simp)]
    simp [List.take_left, List.drop_left]

theorem decodeFields_enc : ∀ (ks : List FieldKind) (vs : List FieldVal),
    fieldsWF ks vs = true → ∀ rest : List Nat,
    decodeFields ks (encodeFields vs ++ rest) = some (vs, rest) := by
  intro ks
  induction ks with
  | nil =>
    intro vs h rest
    cases vs with
    | nil => simp [decodeFields, encodeFields]
    | cons v vs => simp [fieldsWF] at h
  | cons k ks ih =>
    intro vs h rest
    cases vs with
    | nil => simp [fieldsWF] at h
    | cons v vs =>
      simp only [fieldsWF, Bool.and_eq_true] at h
      simp only [encodeFields, List.map_cons, List.flatten_cons, List.append_assoc]
      have hdec := decodeField_enc k v h.1 ((vs.map encodeField).flatten ++ rest)
      simp only [decodeFields, hdec]
      have hrec := ih vs h.2 rest
      simp only [encodeFields] at hrec
      simp only [hrec]

theorem tlvStreamDecF_enc : ∀ (rs : List (Nat × List Nat)) (minNext : Nat),
    tlvWF minNext rs = true → ∀ fuel : Nat, (tlvStreamEnc rs).length ≤ fuel →
    tlvStreamDecF fuel minNext (tlvStreamEnc rs) = some rs := by
  intro rs
  induction rs with
  | nil =>
    intro mn h fuel hf
    simp [tlvStreamEnc, tlvStreamDecF]
  | cons r rs ih =>
    obtain ⟨t, v⟩ := r
    intro mn h fuel hf
    simp only [tlvWF, Bool.and_eq_true, decide_eq_true_eq] at h
    obtain ⟨⟨⟨hmn, ht⟩, hv⟩, hrest⟩ := h
    simp only [tlvStreamEnc, List.map_cons, List.flatten_cons, tlvEnc,
      List.append_assoc] at hf ⊢
    cases fuel with
    | zero =>
      exfalso
      have := bigSizeEnc_length_pos t
      simp only [List.length_append] at hf
      omega
    | succ f =>
      rcases hc : bigSizeEnc t ++ (bigSizeEnc v.length ++ (v ++ (rs.map tlvEnc).flatten))
        with _ | ⟨b, bs'⟩
      · exfalso
        have hpos := bigSizeEnc_length_pos t
        have hlen := congrArg List.length hc
        simp only [List.length_append, List.length_nil] at hlen
        omega
      · simp only [tlvStreamDecF]
        rw [← hc]
        simp only [bigSizeDec_enc t ht, bigSizeDec_enc v.length hv]
        rw [if_pos hmn, if_pos (by simp)]
        rw [List.take_left, List.drop_left]
        have hf' : (tlvStreamEnc rs).length ≤ f := by
          have h1 := bigSizeEnc_length_pos t
          simp only [List.length_append] at hf
          simp only [tlvStreamEnc]
          omega
        have hrec := ih (t + 1) hrest f hf'
        simp only [tlvStreamEnc] at hrec
        rw [hrec]

/-- Claim C1: for every registered message type and every well-formed value
of that type — including values carrying extra-data TLV trailers and custom
records — deserializing the serialization yields the original message, and
the serialized payload (excluding the 2-byte type prefix) never exceeds
`MaxMsgBody` (an over-long body is an encoder error, so a successful write
is always within the bound). -/
theorem wire_message_roundtrip (registry : Nat → Option (List FieldKind))
    (pver : Nat) (m : WireMessage) (sch : List FieldKind)
    (hreg : registry m.typ = some sch) (htyp : m.typ < 65536)
    (hf : fieldsWF sch m.fields = true) (ht : tlvWF 0 m.trailer = true)
    (bs : List Nat) (hw : WriteMessage pver m = Except.ok bs) :
    ReadMessage registry pver bs = Except.ok m ∧
    bs.length = 2 + (encodeBody m).length ∧
    bs.length - 2 ≤ MaxMsgBody := by
  unfold WriteMessage at hw
  by_cases hlen : MaxMsgBody < (encodeBody m).length
  · rw [if_pos hlen] at hw
    exact absurd hw (by simp)
  · rw [if_neg hlen] at hw
    obtain rfl : u16be m.typ ++ encodeBody m = bs := by simpa using hw
    refine ⟨?_, ?_, ?_⟩
    · simp only [u16be, List.cons_append, List.nil_append, ReadMessage]
      have htr : 256 * (m.typ / 256 % 256) + m.typ % 256 = m.typ := by omega
      simp only [htr]
      rw [if_neg hlen]
      simp only [hreg, encodeBody]
      have hdf := decodeFields_enc sch m.fields hf (tlvStreamEnc m.trailer)
      simp only [hdf]
      have htd := tlvStreamDecF_enc m.trailer 0 ht (tlvStreamEnc m.trailer).length
        (le_refl _)
      simp only [tlvStreamDec, htd]
    · simp only [List.length_append, u16be, List.length_cons, List.length_nil]
    · simp only [List.length_append, u16be, List.length_cons, List.length_nil]
      omega

theorem wire_message_roundtrip_witness :
    WriteMessage 0
      ⟨16, [FieldVal.u16V 5, FieldVal.varBytesV [9, 9, 9]],
        [(1, [7]), (65537, [1, 2])]⟩ =
      Except.ok [0, 16, 0, 5, 0, 3, 9, 9, 9, 1, 1, 7, 254, 0, 1, 0, 1, 2, 1, 2] ∧
    ReadMessage
      (fun t => if t = 16 then some [FieldKind.u16, FieldKind.varBytes] else none) 0
      [0, 16, 0, 5, 0, 3, 9, 9, 9, 1, 1, 7, 254, 0, 1, 0, 1, 2, 1, 2] =
      Except.ok
        ⟨16, [FieldVal.u16V 5, FieldVal.varBytesV [9, 9, 9]],
          [(1, [7]), (65537, [1, 2])]⟩ ∧
    ([0, 16, 0, 5, 0, 3, 9, 9, 9, 1, 1, 7, 254, 0, 1, 0, 1, 2, 1, 2] : List Nat).length - 2 ≤
      MaxMsgBody := by
  refine ⟨by decide, ?_, by decide⟩
  exact (wire_message_roundtrip
    (fun t => if t = 16 then some [FieldKind.u16, FieldKind.varBytes] else none) 0
    ⟨16, [FieldVal.u16V 5, FieldVal.varBytesV [9, 9, 9]],
      [(1, [7]), (65537, [1, 2])]⟩
    [FieldKind.u16, FieldKind.varBytes] (by decide) (by decide) (by decide)
    (by decide)
    [0, 16, 0, 5, 0, 3, 9, 9, 9, 1, 1, 7, 254, 0, 1, 0, 1, 2, 1, 2]
    (by decide)).1
